import Mathlib

/-!
Verification of the musikquiz background-processing pipeline.

This file gives a shallow embedding, in Lean 4, of the core of the
musikquiz repository:

* `src/app/utils/processing.ts` — the resolver (`getReleaseData`,
  `getDiscogsData`, `calculateMatchScore`, `fallbackToSpotify`,
  `getMonthName`) together with the string-cleaning expressions it uses;
* `src/app/api/process-job-worker/route.ts` — the QStash worker
  (`handler`), modelled as a state transformer over an explicit Redis
  store;
* `src/app/api/song-stream/route.ts` — the server-sent-event stream
  (`checkUpdates`), modelled as a polling loop over observations of the
  store.

JavaScript string primitives (`split`, `parseInt`, `includes`,
`toLowerCase`, the regex replaces) are modelled by executable Lean
functions on `String`/`List Char`; where a bounded amount of fuel is
used to make a scan structurally recursive, the fuel is instantiated
with the length of the input, which is always sufficient, so the
fuel-exhaustion branches are unreachable.

Network interaction with the Discogs API is modelled by an environment
(`DiscogsEnv`) of oracles returning `Except String`: an `Except.error`
models a thrown exception (failed fetch, malformed JSON, non-2xx
response), which in the source is handled by the surrounding
`try`/`catch`.
-/

namespace Musikquiz

/-! ## JavaScript string primitives -/

/-- The character class `[ \w-]` of the cleaning regexes in
`processing.ts` lines 107–108: space, ASCII word characters
(`[A-Za-z0-9_]`) and the hyphen.  Characters outside the class are
removed by `.replace(/[^ \w-]/g, '')`. -/
def allowedChar (c : Char) : Bool :=
  c = ' ' || c = '-' || c = '_' || c.isAlpha || c.isDigit

/-- JavaScript `String.prototype.toLowerCase` restricted to ASCII, which
is all the source ever compares. -/
def jsToLower (s : String) : String :=
  String.mk (s.data.map Char.toLower)

/-- JavaScript `parseInt(s, 10)`: skip leading whitespace, read an
optional sign, then the longest digit prefix; `none` models `NaN`. -/
def jsParseInt (s : String) : Option Int :=
  let l := s.data.dropWhile Char.isWhitespace
  let signAndRest : Bool × List Char :=
    match l with
    | '-' :: t => (true, t)
    | '+' :: t => (false, t)
    | _ => (false, l)
  let digits := signAndRest.2.takeWhile Char.isDigit
  if digits.isEmpty then none
  else
    let n : Nat := digits.foldl (fun a c => a * 10 + (c.toNat - '0'.toNat)) 0
    some (if signAndRest.1 then -(n : Int) else (n : Int))

/-- One step of JavaScript `String.prototype.split(sep)` for a non-empty
separator, fueled to stay structurally recursive.  Each recursive call
consumes at least one character, so `fuel = length` never runs out. -/
def jsSplitFuel (sep : List Char) : Nat → List Char → List (List Char)
  | _, [] => [[]]
  | 0, l => [l]
  | fuel + 1, c :: t =>
    if sep ≠ [] ∧ sep.isPrefixOf (c :: t) then
      [] :: jsSplitFuel sep fuel (List.drop (sep.length - 1) t)
    else
      match jsSplitFuel sep fuel t with
      | [] => [[c]]
      | h :: r => (c :: h) :: r

/-- JavaScript `s.split(sep)` for a non-empty separator. -/
def jsSplitOn (s sep : String) : List String :=
  (jsSplitFuel sep.data s.data.length s.data).map String.mk

/-- JavaScript `haystack.includes(needle)`. -/
def strIncludesAux (needle : List Char) : List Char → Bool
  | [] => needle.isPrefixOf []
  | c :: t => needle.isPrefixOf (c :: t) || strIncludesAux needle t

/-- JavaScript `haystack.includes(needle)` at the `String` level. -/
def strIncludes (haystack needle : String) : Bool :=
  strIncludesAux needle.data haystack.data

/-- JavaScript `x || d` for an optional string `x` (as produced by
indexing past the end of an array): `undefined` and `""` are falsy. -/
def jsStringOr : Option String → String → String
  | none, d => d
  | some s, d => if s = "" then d else s

/-! ## The cleaning regexes (`processing.ts` lines 107–108, mirrored by
`cleanTitle`/`cleanArtist` in `discogs.ts`) -/

/-- Consume characters up to and including the first occurrence of
`close`; `none` if `close` never occurs.  This is the greedy match of
`[^)]*\)` (resp. `[^\]]*\]`) after an opening delimiter. -/
def dropGroup (close : Char) : List Char → Option (List Char)
  | [] => none
  | c :: t => if c = close then some t else dropGroup close t

/-- The single global pass of
`.replace(/\([^)]*\)|\[[^\]]*\]|[^ \w-]/g, '')` from `processing.ts`
line 107: a parenthesized or bracketed group is removed whole; an
unmatched opening delimiter, and any other character outside `[ \w-]`,
is removed alone.  Fueled to stay structurally recursive; each step
consumes at least one character. -/
def stripPassFuel : Nat → List Char → List Char
  | _, [] => []
  | 0, l => l
  | fuel + 1, c :: t =>
    if c = '(' then
      match dropGroup ')' t with
      | some r => stripPassFuel fuel r
      | none => stripPassFuel fuel t
    else if c = '[' then
      match dropGroup ']' t with
      | some r => stripPassFuel fuel r
      | none => stripPassFuel fuel t
    else if allowedChar c then c :: stripPassFuel fuel t
    else stripPassFuel fuel t

/-- Like `stripPassFuel` but removing only the parenthesized and
bracketed groups, keeping every other character.  This is the
"strip parenthesized and bracketed substrings" step in the words of the
specification. -/
def stripOnlyFuel : Nat → List Char → List Char
  | _, [] => []
  | 0, l => l
  | fuel + 1, c :: t =>
    if c = '(' then
      match dropGroup ')' t with
      | some r => stripOnlyFuel fuel r
      | none => c :: stripOnlyFuel fuel t
    else if c = '[' then
      match dropGroup ']' t with
      | some r => stripOnlyFuel fuel r
      | none => c :: stripOnlyFuel fuel t
    else c :: stripOnlyFuel fuel t

/-- JavaScript `.replace(/\s+/g, ' ')` on a string whose only remaining
whitespace is the space character (all other whitespace was removed by
the preceding replace): collapse each run of spaces to one space. -/
def collapseSpaces : List Char → List Char
  | [] => []
  | [c] => [c]
  | c :: c' :: t =>
    if c = ' ' ∧ c' = ' ' then collapseSpaces (c' :: t)
    else c :: collapseSpaces (c' :: t)

/-- JavaScript `.trim()` on a string whose only whitespace is spaces. -/
def trimSpaces (l : List Char) : List Char :=
  ((l.dropWhile (· = ' ')).reverse.dropWhile (· = ' ')).reverse

/-- Embedding of `song.title.replace(/\([^)]*\)|\[[^\]]*\]|[^ \w-]/g, '')
.replace(/\s+/g, ' ').trim().toLowerCase()` — the title normalization
of the resolver (`processing.ts` line 107). -/
def cleanTitle (s : String) : String :=
  String.mk (((stripPassFuel s.data.length s.data
    |> collapseSpaces) |> trimSpaces).map Char.toLower)

/-- Embedding of `song.artist.replace(/[^ \w-]/g, '').replace(/\s+/g, ' ')
.trim().toLowerCase()` — the artist normalization of the resolver
(`processing.ts` line 108).  Note: no group stripping. -/
def cleanArtist (s : String) : String :=
  String.mk ((((s.data.filter allowedChar)
    |> collapseSpaces) |> trimSpaces).map Char.toLower)

/-- Normalization in the words of the specification: strip parenthesized
and bracketed substrings, remove characters outside `[A-Za-z0-9 _-]`,
collapse runs of whitespace to one space, trim, lowercase. -/
def specNormalize (s : String) : String :=
  String.mk (((((stripOnlyFuel s.data.length s.data).filter allowedChar)
    |> collapseSpaces) |> trimSpaces).map Char.toLower)

/-- The specification's normalization minus the group-stripping step. -/
def specNormalizeNoStrip (s : String) : String :=
  String.mk ((((s.data.filter allowedChar)
    |> collapseSpaces) |> trimSpaces).map Char.toLower)

/-! ## Data model (`processing.ts` interfaces `Song`, `ProcessedSong`) -/

/-- Structure `Song` — identity of a track before resolution. -/
structure Song where
  artist : String
  title : String
  currentReleaseDate : String
  spotifyUrl : String
deriving DecidableEq

/-- Structure `ProcessedSong` — a `Song` augmented with a resolved date.  The
`source` field holds the literal of the TypeScript union
`'deezer' | 'discogs' | 'spotify'` (the specification calls `'discogs'`
"catalog" and `'spotify'` "streaming"). -/
structure ProcessedSong where
  artist : String
  title : String
  currentReleaseDate : String
  spotifyUrl : String
  releaseYear : String
  releaseMonth : String
  releaseDay : String
  source : String
  sourceUrl : Option String
  error : Option String
deriving DecidableEq

/-- The `MONTHS` array: English month names, January first. -/
def monthNames : List String :=
  ["January", "February", "March", "April", "May", "June",
   "July", "August", "September", "October", "November", "December"]

/-- Function `getMonthName(monthNum)` from `processing.ts` lines 29–35.  The
argument is `Option String` because the source passes
`split('-')[1]`, which may be `undefined`; `undefined` and `""` are
both falsy and return `"N/A"`. -/
def getMonthName : Option String → String
  | none => "N/A"
  | some s =>
    if s = "" then "N/A"
    else
      match jsParseInt s with
      | none => "N/A"
      | some n => if n < 1 ∨ 12 < n then "N/A" else monthNames.getD (n.toNat - 1) "N/A"

/-- Function `fallbackToSpotify(song)` from `processing.ts` lines 38–50: split
`currentReleaseDate` on `-`, year = first component or `N/A`, month via
`getMonthName`, day = third component or `N/A`, `source = 'spotify'`,
`sourceUrl = spotifyUrl`. -/
def fallbackToSpotify (song : Song) : ProcessedSong :=
  let parts := jsSplitOn song.currentReleaseDate "-"
  { artist := song.artist
    title := song.title
    currentReleaseDate := song.currentReleaseDate
    spotifyUrl := song.spotifyUrl
    releaseYear := jsStringOr parts[0]? "N/A"
    releaseMonth := getMonthName parts[1]?
    releaseDay := jsStringOr parts[2]? "N/A"
    source := "spotify"
    sourceUrl := some song.spotifyUrl
    error := none }

/-- Function `fallbackToStreaming` in the words of the specification: split
`currentReleaseDate` on `-` into year/month/day components, map the
month number to its English name (or `N/A`), set `source` to the
streaming service and `sourceUrl` to `spotifyUrl`. -/
def fallbackStreamingSpec (song : Song) : ProcessedSong :=
  let comps := jsSplitOn song.currentReleaseDate "-"
  { artist := song.artist
    title := song.title
    currentReleaseDate := song.currentReleaseDate
    spotifyUrl := song.spotifyUrl
    releaseYear := match comps with
      | [] => "N/A"
      | y :: _ => if y = "" then "N/A" else y
    releaseMonth := match comps with
      | _ :: m :: _ =>
        (match jsParseInt m with
         | some n => if 1 ≤ n ∧ n ≤ 12 then monthNames.getD (n.toNat - 1) "N/A" else "N/A"
         | none => "N/A")
      | _ => "N/A"
    releaseDay := match comps with
      | _ :: _ :: d :: _ => if d = "" then "N/A" else d
      | _ => "N/A"
    source := "spotify"
    sourceUrl := some song.spotifyUrl
    error := none }

/-! ## Match scoring (`calculateMatchScore`, `processing.ts` lines 53–95) -/

/-- One entry of `searchData.results`: the fields the resolver reads. -/
structure SearchResult where
  id : Nat
  title : String
  year : String
deriving DecidableEq

/-- Function `calculateMatchScore(result, cleanedArtist, cleanedTitle)`: lowercase
the result title, split it on `' - '` (every occurrence, as JavaScript
`split` does), require exactly two parts, then score
artist 40/20/0, title 40/20/0 and year 20/0 where the year is accepted
when `parseInt(result.year, 10)` lands in `[1900, currentYear]`. -/
def calculateMatchScore (currentYear : Int) (result : SearchResult)
    (cleanedArtist cleanedTitle : String) : Int :=
  let parts := jsSplitOn (jsToLower result.title) " - "
  if parts.length ≠ 2 then 0
  else
    let artistPart := parts.headD ""
    let titlePart := (parts.drop 1).headD ""
    (if artistPart = cleanedArtist then 40
     else if strIncludes artistPart cleanedArtist then 20 else 0)
    + (if titlePart = cleanedTitle then 40
       else if strIncludes titlePart cleanedTitle then 20 else 0)
    + (match jsParseInt result.year with
       | none => 0
       | some y => if 1900 ≤ y ∧ y ≤ currentYear then 20 else 0)

/-- Artist subscore in the words of the specification. -/
def artistSubscore (normArtist a : String) : Int :=
  if a = normArtist then 40 else if strIncludes a normArtist then 20 else 0

/-- Title subscore in the words of the specification. -/
def titleSubscore (normTitle t : String) : Int :=
  if t = normTitle then 40 else if strIncludes t normTitle then 20 else 0

/-- Rejoin split pieces with the separator (kernel-computable
`String.intercalate`). -/
def joinWithSep (sep : String) (l : List String) : String :=
  String.mk (List.intercalate sep.data (l.map String.data))

/-- Returns `true` iff the string is a non-empty run of ASCII digits. -/
def allDigits (s : String) : Bool :=
  !s.data.isEmpty && s.data.all Char.isDigit

/-- Numeric value of a digit string. -/
def digitsToNat (s : String) : Nat :=
  s.data.foldl (fun a c => a * 10 + (c.toNat - '0'.toNat)) 0

/-- Split a string at the FIRST occurrence of `sep`, as the
specification's reference scoring prescribes; `none` when `sep` does
not occur. -/
def splitAtFirst (s sep : String) : Option (String × String) :=
  match jsSplitOn s sep with
  | a :: b :: rest => some (a, joinWithSep sep (b :: rest))
  | _ => none

/-- The reference match score exactly as the claim states it: split the
candidate title on the FIRST `' - '` into `(a, t)`; score the two parts
and the year, where the year counts when it is a four-digit integer in
`[1900, currentYear]`; a title with no `' - '` does not split into two
parts and scores 0. -/
def matchScoreClaim (currentYear : Int) (result : SearchResult)
    (normArtist normTitle : String) : Int :=
  match splitAtFirst (jsToLower result.title) " - " with
  | none => 0
  | some (a, t) =>
    artistSubscore normArtist a + titleSubscore normTitle t
    + (if allDigits result.year ∧ result.year.length = 4
          ∧ 1900 ≤ (digitsToNat result.year : Int)
          ∧ (digitsToNat result.year : Int) ≤ currentYear
       then 20 else 0)

/-- The reference match score amended to what the code computes: split
on EVERY occurrence of `' - '` and require exactly two parts (a title
containing more than one `' - '` scores 0), the year being accepted by
its `parseInt` digit prefix. -/
def matchScoreRef (currentYear : Int) (result : SearchResult)
    (normArtist normTitle : String) : Int :=
  match jsSplitOn (jsToLower result.title) " - " with
  | [a, t] =>
    artistSubscore normArtist a + titleSubscore normTitle t
    + (match jsParseInt result.year with
       | none => 0
       | some y => if 1900 ≤ y ∧ y ≤ currentYear then 20 else 0)
  | _ => 0

/-! ## The resolver (`getDiscogsData` / `getReleaseData`,
`processing.ts` lines 98–237) -/

/-- The body of `searchData` the resolver reads (`results` absent is
modelled by the empty list; both are falsy in every use the source
makes of it). -/
structure SearchResp where
  results : List SearchResult
deriving DecidableEq

/-- The fields of a Discogs master the resolver reads.  `year` is a
JSON number or absent (`masterData.year?.toString() || 'N/A'`). -/
structure MasterResp where
  id : Nat
  year : Option Int
  main_release : Nat
deriving DecidableEq

/-- One entry of `releaseData.formats`. -/
structure FormatInfo where
  name : String
  descriptions : Option (List String)
deriving DecidableEq

/-- The fields of a Discogs release the resolver reads. -/
structure ReleaseResp where
  id : Nat
  released : Option String
  formats : List FormatInfo
deriving DecidableEq

/-- Oracle for the network interaction of the resolver.  `search` takes
the query string and the `per_page` parameter; `Except.error` models a
thrown exception anywhere in the fetch-check-parse sequence (failed
`fetch`, non-2xx response turned into `throw new Error(...)`,
malformed JSON).  `currentYear` models `new Date().getFullYear()`. -/
structure DiscogsEnv where
  search : String → Nat → Except String SearchResp
  master : Nat → Except String MasterResp
  release : Nat → Except String ReleaseResp
  currentYear : Int

/-- The best-match loop of `getDiscogsData` (lines 144–152):
`bestMatch = null; bestMatchScore = -1;` then for each result, update
on a strictly greater score. -/
def selectBestAux (currentYear : Int) (ca ct : String) :
    List SearchResult → Option SearchResult → Int → Option SearchResult × Int
  | [], best, bestScore => (best, bestScore)
  | r :: rest, best, bestScore =>
    if calculateMatchScore currentYear r ca ct > bestScore then
      selectBestAux currentYear ca ct rest (some r) (calculateMatchScore currentYear r ca ct)
    else
      selectBestAux currentYear ca ct rest best bestScore

/-- Best match and best score over a result list. -/
def selectBest (currentYear : Int) (ca ct : String) (l : List SearchResult) :
    Option SearchResult × Int :=
  selectBestAux currentYear ca ct l none (-1)

/-- Keywords of the promo/sampler filter (line 180). -/
def promoKeywords : List String :=
  ["promo", "sampler", "test pressing", "advance", "acetate"]

/-- The check `format?.descriptions?.some(desc => keywords.some(k =>
desc.toLowerCase().includes(k)))` with `format = releaseData.formats?.[0]`. -/
def isPromoRelease (rd : ReleaseResp) : Bool :=
  match rd.formats.head? with
  | none => false
  | some f =>
    match f.descriptions with
    | none => false
    | some ds => ds.any fun d => promoKeywords.any fun k => strIncludes (jsToLower d) k

/-- The three date components the resolver assembles. -/
structure RDate where
  yr : String
  mo : String
  dy : String
deriving DecidableEq

/-- Lines 185–191 of `processing.ts`: year defaults to the master's
year (`masterData.year?.toString() || 'N/A'`), then each truthy
component of `releaseData.released.split('-')` overrides. -/
def parseReleaseParts (md : MasterResp) (rd : ReleaseResp) : RDate :=
  let baseYr := match md.year with
    | none => "N/A"
    | some y => toString y
  match rd.released with
  | none => { yr := baseYr, mo := "N/A", dy := "N/A" }
  | some rel =>
    if rel = "" then { yr := baseYr, mo := "N/A", dy := "N/A" }
    else
      let parts := jsSplitOn rel "-"
      { yr := match parts[0]? with
          | some "" => baseYr
          | some s => s
          | none => baseYr
        mo := match parts[1]? with
          | some "" => "N/A"
          | some s => getMonthName (some s)
          | none => "N/A"
        dy := match parts[2]? with
          | some "" => "N/A"
          | some s => s
          | none => "N/A" }

/-- The `try` body of `getDiscogsData(song)` (lines 98–210), with
`Except.error` standing for a thrown exception.  The combined search
query is `` `${cleanedArtist} ${cleanedTitle}` `` with `per_page=10`;
the retry query is `` `artist:"${cleanedArtist}"` `` with
`per_page=20`. -/
def getDiscogsDataE (env : DiscogsEnv) (song : Song) : Except String ProcessedSong :=
  let ct := cleanTitle song.title
  let ca := cleanArtist song.artist
  match env.search (ca ++ " " ++ ct) 10 with
  | .error e => .error e
  | .ok sd0 =>
    match (if sd0.results.isEmpty
           then env.search ("artist:\"" ++ ca ++ "\"") 20
           else .ok sd0) with
    | .error e => .error e
    | .ok sd =>
      if sd.results.isEmpty then .ok (fallbackToSpotify song)
      else
        match selectBest env.currentYear ca ct sd.results with
        | (none, _) => .ok (fallbackToSpotify song)
        | (some best, bestScore) =>
          if bestScore < 80 then .ok (fallbackToSpotify song)
          else
            match env.master best.id with
            | .error e => .error e
            | .ok md =>
              match env.release md.main_release with
              | .error e => .error e
              | .ok rd =>
                if isPromoRelease rd then .ok (fallbackToSpotify song)
                else
                  let d := parseReleaseParts md rd
                  match jsParseInt d.yr with
                  | none => .ok (fallbackToSpotify song)
                  | some y =>
                    if y < 1900 ∨ env.currentYear < y then .ok (fallbackToSpotify song)
                    else .ok
                      { artist := song.artist
                        title := song.title
                        currentReleaseDate := song.currentReleaseDate
                        spotifyUrl := song.spotifyUrl
                        releaseYear := d.yr
                        releaseMonth := d.mo
                        releaseDay := d.dy
                        source := "discogs"
                        sourceUrl := some ("https://www.discogs.com/master/" ++ toString best.id)
                        error := none }

/-- Function `getDiscogsData(song)`: the `try`/`catch` around the body — any
thrown exception yields `fallbackToSpotify(song)` (line 213). -/
def getDiscogsData (env : DiscogsEnv) (song : Song) : ProcessedSong :=
  match getDiscogsDataE env song with
  | .ok p => p
  | .error _ => fallbackToSpotify song

/-- Function `getReleaseData(song)` (lines 218–237): call `getDiscogsData` and
fall back when the returned `releaseYear` is falsy or `'N/A'`. -/
def getReleaseData (env : DiscogsEnv) (song : Song) : ProcessedSong :=
  let p := getDiscogsData env song
  if p.releaseYear = "" ∨ p.releaseYear = "N/A" then fallbackToSpotify song
  else p

/-! ## The Redis store, the worker
(`process-job-worker/route.ts`) and the keys -/

/-- The Redis state the pipeline uses: plain string values (statuses)
and lists of serialized `ProcessedSong` (results).  Serialization by
`JSON.stringify` is injective on the fields the pipeline reads, so the
stored entries are modelled as `ProcessedSong` values directly. -/
structure Store where
  strs : String → Option String
  lists : String → List ProcessedSong

/-- The empty store. -/
def Store.empty : Store := { strs := fun _ => none, lists := fun _ => [] }

/-- Operation `redis.set(k, v)` (TTL is not modelled; it affects no claim). -/
def Store.setStr (st : Store) (k v : String) : Store :=
  { st with strs := fun k' => if k' = k then some v else st.strs k' }

/-- Operation `redis.rpush(k, v)`: append at the tail. -/
def Store.rpush (st : Store) (k : String) (p : ProcessedSong) : Store :=
  { st with lists := fun k' => if k' = k then st.lists k' ++ [p] else st.lists k' }

/-- Operation `redis.lpush(k, v)`: prepend at the head (used by the legacy
in-process background path in `process-songs/route.ts`). -/
def Store.lpush (st : Store) (k : String) (p : ProcessedSong) : Store :=
  { st with lists := fun k' => if k' = k then p :: st.lists k' else st.lists k' }

/-- The key `` `job:${jobId}:status` `` — written by the worker
(`process-job-worker/route.ts` line 43) and the orchestrator
(`process-songs/route.ts`, QStash variant, line 362). -/
def workerStatusKey (jobId : String) : String := "job:" ++ jobId ++ ":status"

/-- The key `` `job:${jobId}:results` `` — written by the worker
(`process-job-worker/route.ts` line 44). -/
def workerResultsKey (jobId : String) : String := "job:" ++ jobId ++ ":results"

/-- The key `` `${jobId}:status` `` — read by the event stream
(`song-stream/route.ts` line 31). -/
def streamStatusKey (jobId : String) : String := jobId ++ ":status"

/-- The key `` `${jobId}:results` `` — read by the event stream
(`song-stream/route.ts` line 30). -/
def streamResultsKey (jobId : String) : String := jobId ++ ":results"

/-- The song-processing loop and status writes of the worker `handler`
(`process-job-worker/route.ts` lines 47–79): set status `processing`,
then for each song `rpush` the serialized `getReleaseData` result, then
set status `complete`.  The per-song `catch` (lines 63–68) is
unreachable here because `getReleaseData` is total and the store is
modelled as always available. -/
def workerHandler (env : DiscogsEnv) (jobId : String) (songs : List Song)
    (st : Store) : Store :=
  let st1 := st.setStr (workerStatusKey jobId) "processing"
  let st2 := songs.foldl
    (fun s song => s.rpush (workerResultsKey jobId) (getReleaseData env song)) st1
  st2.setStr (workerStatusKey jobId) "complete"

/-! ## The event stream (`song-stream/route.ts`) -/

/-- A server-sent event the stream emits. -/
inductive SSEvent where
  | song (p : ProcessedSong)
  | done (status : String)
  | error (message : String)
deriving DecidableEq

/-- What one execution of `checkUpdates` observes in the store: the
full `lrange(resultsKey, 0, -1)` and `get(statusKey)`. -/
structure StreamObs where
  list : List ProcessedSong
  status : Option String
deriving DecidableEq

/-- The terminal statuses `checkUpdates` recognizes (line 86):
`complete`, `failed`, `init_failed`. -/
def terminalStatus (st : Option String) : Bool :=
  st = some "complete" || st = some "failed" || st = some "init_failed"

/-- One execution of `checkUpdates` (lines 50–113) from a given
`lastSentIndex`: reverse the fetched list, emit a `song` event for each
entry past `lastSentIndex`, advance `lastSentIndex`, then read the
status and, when it is terminal and everything read has been sent, emit
`done` and close.  Returns (events, new `lastSentIndex`, closed).  The
entry filter of line 58 accepts every well-formed serialized
`ProcessedSong`, which is all the pipeline ever stores. -/
def streamCheck (obs : StreamObs) (lastIdx : Nat) : List SSEvent × Nat × Bool :=
  let cur := obs.list.reverse
  let events := (cur.drop lastIdx).map SSEvent.song
  let newIdx := max lastIdx cur.length
  if terminalStatus obs.status ∧ newIdx = cur.length then
    (events ++ [SSEvent.done (obs.status.getD "finished_unexpected_null")], newIdx, true)
  else
    (events, newIdx, false)

/-- The 1-second polling loop: run `checkUpdates` on successive
observations of the store until it closes (or the observation sequence
ends, modelling client disconnect or the runtime deadline). -/
def streamRun : List StreamObs → Nat → List SSEvent
  | [], _ => []
  | o :: rest, lastIdx =>
    let r := streamCheck o lastIdx
    if r.2.2 then r.1 else r.1 ++ streamRun rest r.2.1

/-- The `ProcessedSong` payloads of the `song` events, in order. -/
def songEvents (l : List SSEvent) : List ProcessedSong :=
  l.filterMap fun e => match e with
    | SSEvent.song p => some p
    | _ => none

/-! ## Concrete fixtures used to instantiate the theorems -/

/-- A catalog outage: every request throws (scenario S3 of the spec). -/
def failEnv : DiscogsEnv :=
  { search := fun _ _ => .error "Failed to search Discogs (Combined)"
    master := fun _ => .error "Failed to fetch master details"
    release := fun _ => .error "Failed to fetch release details"
    currentYear := 2026 }

/-- A catalog whose search succeeds with one candidate that scores 0
(no `' - '` in the title), so the best score stays below 80. -/
def lowScoreEnv : DiscogsEnv :=
  { search := fun _ _ => .ok { results := [{ id := 3, title := "zzz", year := "x" }] }
    master := fun _ => .error "Failed to fetch master details"
    release := fun _ => .error "Failed to fetch release details"
    currentYear := 2026 }

/-- A catalog that resolves "Hey Jude" through the full happy path:
one candidate scoring 100, a master with `main_release`, and a release
dated `1968-08-26` with no promo format. -/
def heyJudeEnv : DiscogsEnv :=
  { search := fun _ _ =>
      .ok { results := [{ id := 7, title := "Beatles - Hey Jude", year := "1968" }] }
    master := fun _ => .ok { id := 7, year := some 1968, main_release := 9 }
    release := fun _ => .ok { id := 9, released := some "1968-08-26", formats := [] }
    currentYear := 2026 }

/-- First sample input song. -/
def songA : Song :=
  { artist := "A", title := "T1", currentReleaseDate := "1999-01-01", spotifyUrl := "uA" }

/-- Second sample input song; resolves to the same year as `songA`
under `failEnv`. -/
def songB : Song :=
  { artist := "B", title := "T2", currentReleaseDate := "1999-05-05", spotifyUrl := "uB" }

/-- The Hey Jude input song. -/
def heyJudeSong : Song :=
  { artist := "Beatles", title := "Hey Jude", currentReleaseDate := "1968-08-26"
    spotifyUrl := "uH" }

/-- A song whose streaming release date is older than 1900. -/
def oldSong : Song :=
  { artist := "O", title := "Old", currentReleaseDate := "1800-06-01", spotifyUrl := "uO" }

/-! ## Helper lemmas -/

/-- Function `getMonthName` on a present component agrees with the
specification's month mapping. -/
lemma getMonthName_some_eq (m : String) :
    getMonthName (some m) =
      (match jsParseInt m with
       | some n => if 1 ≤ n ∧ n ≤ 12 then monthNames.getD (n.toNat - 1) "N/A" else "N/A"
       | none => "N/A") := by
  unfold getMonthName
  by_cases hm : m = ""
  · subst hm
    have h0 : jsParseInt "" = none := by decide
    simp [h0]
  · simp only [hm, if_false]
    cases h : jsParseInt m with
    | none => rfl
    | some n =>
      by_cases h1 : n < 1 ∨ 12 < n
      · have h2 : ¬(1 ≤ n ∧ n ≤ 12) := by omega
        simp [h1, h2]
      · have h2 : 1 ≤ n ∧ n ≤ 12 := by omega
        simp [h1, h2]

/-- Function `fallbackToSpotify` implements the specification's
`fallbackToStreaming`. -/
lemma fallbackToSpotify_eq_spec (song : Song) :
    fallbackToSpotify song = fallbackStreamingSpec song := by
  rcases hc : jsSplitOn song.currentReleaseDate "-" with _ | ⟨y, t1⟩
  · simp [fallbackToSpotify, fallbackStreamingSpec, hc, jsStringOr, getMonthName]
  · rcases t1 with _ | ⟨m, t2⟩
    · by_cases hy : y = "" <;>
        simp [fallbackToSpotify, fallbackStreamingSpec, hc, jsStringOr, getMonthName, hy]
    · rcases t2 with _ | ⟨d, rest⟩
      · by_cases hy : y = "" <;>
          simp [fallbackToSpotify, fallbackStreamingSpec, hc, jsStringOr,
            getMonthName_some_eq, hy]
      · by_cases hy : y = "" <;> by_cases hd : d = "" <;>
          simp [fallbackToSpotify, fallbackStreamingSpec, hc, jsStringOr,
            getMonthName_some_eq, hy, hd]

/-- A `setStr` leaves every other string key unchanged. -/
lemma Store.strs_setStr_ne (st : Store) (k v k' : String) (h : k' ≠ k) :
    (st.setStr k v).strs k' = st.strs k' := by
  simp [Store.setStr, h]

/-- Operation `setStr` never touches the lists. -/
lemma Store.lists_setStr (st : Store) (k v k' : String) :
    (st.setStr k v).lists k' = st.lists k' := rfl

/-- A fold of `rpush`es on one key leaves every other list key
unchanged. -/
lemma Store.lists_foldl_rpush_ne {α : Type} (xs : List α) (f : α → ProcessedSong)
    (k k' : String) (st : Store) (h : k' ≠ k) :
    ((xs.foldl (fun s x => s.rpush k (f x)) st).lists k') = st.lists k' := by
  induction xs generalizing st with
  | nil => rfl
  | cons x t ih => simpa [Store.rpush, h] using ih (st.rpush k (f x))

/-- A fold of `rpush`es never touches the string values. -/
lemma Store.strs_foldl_rpush {α : Type} (xs : List α) (f : α → ProcessedSong)
    (k : String) (st : Store) :
    ((xs.foldl (fun s x => s.rpush k (f x)) st).strs) = st.strs := by
  induction xs generalizing st with
  | nil => rfl
  | cons x t ih => simpa [Store.rpush] using ih (st.rpush k (f x))

/-- A fold of `rpush`es on one key appends the pushed values in order. -/
lemma Store.lists_foldl_rpush_self {α : Type} (xs : List α) (f : α → ProcessedSong)
    (k : String) (st : Store) :
    ((xs.foldl (fun s x => s.rpush k (f x)) st).lists k) = st.lists k ++ xs.map f := by
  induction xs generalizing st with
  | nil => simp
  | cons x t ih =>
    simp only [List.foldl_cons, List.map_cons]
    rw [ih (st.rpush k (f x))]
    simp [Store.rpush]

/-! ## C10 — `fallbackToStreaming` -/

/-- C10: `fallbackToStreaming(song)` splits `song.currentReleaseDate`
on `-` into year/month/day components, maps the month number to its
English name (or `N/A`), and sets `source = 'spotify'` (the streaming
service) and `sourceUrl = song.spotifyUrl`; the empty date yields
`N/A` for all three components, and `"1999-03"` yields month `March`
and day `N/A`. -/
theorem c10_fallback_to_streaming_spec :
    (∀ song : Song, fallbackToSpotify song = fallbackStreamingSpec song)
    ∧ (fallbackToSpotify ⟨"a", "t", "", "u"⟩).releaseYear = "N/A"
    ∧ (fallbackToSpotify ⟨"a", "t", "", "u"⟩).releaseMonth = "N/A"
    ∧ (fallbackToSpotify ⟨"a", "t", "", "u"⟩).releaseDay = "N/A"
    ∧ (fallbackToSpotify ⟨"a", "t", "1999-03", "u"⟩).releaseMonth = "March"
    ∧ (fallbackToSpotify ⟨"a", "t", "1999-03", "u"⟩).releaseDay = "N/A" :=
  ⟨fallbackToSpotify_eq_spec, by decide, by decide, by decide, by decide, by decide⟩

/-! ## C4 — the stream's keys and the worker's keys are disjoint -/

/-- C4: for every `jobId`, the keys the event stream reads
(`${jobId}:results`, `${jobId}:status`) are distinct strings from the
keys the worker and orchestrator write (`job:${jobId}:results`,
`job:${jobId}:status`); consequently running the worker leaves the
values at the stream's keys untouched, so a stream never reads results
or status written by the worker for that job. -/
theorem c4_stream_worker_keys_disjoint :
    ∀ jobId : String,
      streamResultsKey jobId ≠ workerResultsKey jobId
      ∧ streamResultsKey jobId ≠ workerStatusKey jobId
      ∧ streamStatusKey jobId ≠ workerResultsKey jobId
      ∧ streamStatusKey jobId ≠ workerStatusKey jobId
      ∧ ∀ (env : DiscogsEnv) (songs : List Song) (st : Store),
          (workerHandler env jobId songs st).lists (streamResultsKey jobId)
            = st.lists (streamResultsKey jobId)
          ∧ (workerHandler env jobId songs st).strs (streamStatusKey jobId)
            = st.strs (streamStatusKey jobId) := by
  intro j
  have len8 : (":results" : String).length = 8 := by decide
  have len7 : (":status" : String).length = 7 := by decide
  have len4 : ("job:" : String).length = 4 := by decide
  have h1 : streamResultsKey j ≠ workerResultsKey j := by
    intro h
    have := congrArg String.length h
    simp only [streamResultsKey, workerResultsKey, String.length_append, len8, len4] at this
    omega
  have h2 : streamResultsKey j ≠ workerStatusKey j := by
    intro h
    have := congrArg String.length h
    simp only [streamResultsKey, workerStatusKey, String.length_append,
      len8, len7, len4] at this
    omega
  have h3 : streamStatusKey j ≠ workerResultsKey j := by
    intro h
    have := congrArg String.length h
    simp only [streamStatusKey, workerResultsKey, String.length_append,
      len8, len7, len4] at this
    omega
  have h4 : streamStatusKey j ≠ workerStatusKey j := by
    intro h
    have := congrArg String.length h
    simp only [streamStatusKey, workerStatusKey, String.length_append, len7, len4] at this
    omega
  refine ⟨h1, h2, h3, h4, fun env songs st => ⟨?_, ?_⟩⟩
  · unfold workerHandler
    rw [Store.lists_setStr, Store.lists_foldl_rpush_ne _ _ _ _ _ h1,
      Store.lists_setStr]
  · unfold workerHandler
    rw [Store.strs_setStr_ne _ _ _ _ h4, Store.strs_foldl_rpush,
      Store.strs_setStr_ne _ _ _ _ h4]

/-! ## C1 — the worker performs no year deduplication -/

/-- C1: evaluating the worker at a concrete failing input.  Under a
catalog outage, `songA` and `songB` both resolve (through the
streaming fallback) to release year `1999`; the worker `rpush`es both
onto the job's results list unconditionally, so after it finishes and
sets the status to `complete`, the results list holds two entries with
the same non-`N/A` release year — there is no `appendResult`-style
guard in `process-job-worker/route.ts` lines 56–69. -/
theorem c1_worker_no_dedup_eval :
    ((workerHandler failEnv "J" [songA, songB] Store.empty).lists
        (workerResultsKey "J")).map ProcessedSong.releaseYear = ["1999", "1999"]
    ∧ ("1999" : String) ≠ "N/A"
    ∧ (workerHandler failEnv "J" [songA, songB] Store.empty).strs (workerStatusKey "J")
        = some "complete" := by
  decide

/-! ## C5 — the resolver never throws -/

/-- C5: any exception inside `getDiscogsData`'s algorithm — search,
master fetch, release fetch, JSON parse — is caught and the public
operation `getReleaseData` returns `fallbackToSpotify(song)`; being a
total Lean function, it always returns a `ProcessedSong`. -/
theorem c5_get_release_data_error_fallback (env : DiscogsEnv) (song : Song)
    (h : ∃ e, getDiscogsDataE env song = Except.error e) :
    getReleaseData env song = fallbackToSpotify song := by
  obtain ⟨e, he⟩ := h
  unfold getReleaseData getDiscogsData
  rw [he]
  simp [ite_self]

/-- Witness for C5 at the catalog-outage environment: the combined
search throws and the resolver returns the streaming fallback. -/
theorem c5_get_release_data_error_fallback_witness :
    (∃ e, getDiscogsDataE failEnv songA = Except.error e)
    ∧ getReleaseData failEnv songA = fallbackToSpotify songA :=
  ⟨⟨"Failed to search Discogs (Combined)", rfl⟩,
    c5_get_release_data_error_fallback failEnv songA
      ⟨"Failed to search Discogs (Combined)", rfl⟩⟩

/-! ## C6 — counterexample to the year invariant on the fallback path -/

/-- C6 counterexample: the streaming fallback path performs no year
validation.  Under a catalog outage, `oldSong` (streaming date
`1800-06-01`) is resolved by the resolver to `releaseYear = "1800"`,
which is neither `"N/A"` nor in `[1900, currentYear]` — refuting the
claimed invariant for fallback-produced `ProcessedSong`s. -/
theorem c6_fallback_year_counterexample :
    (getReleaseData failEnv oldSong).releaseYear = "1800"
    ∧ (getReleaseData failEnv oldSong).releaseYear ≠ "N/A"
    ∧ jsParseInt (getReleaseData failEnv oldSong).releaseYear = some 1800
    ∧ ¬(1900 ≤ (1800 : Int)) := by
  decide

/-! ## C7 — counterexample to the split-on-first reference score -/

/-- C7 counterexample: for candidate title `"x - y - z"` with
`normArtist = "x"`, `normTitle = "y - z"`, year `1968`, the claimed
reference (split at the FIRST `' - '`) scores 100, but the code splits
on every occurrence, finds three parts and scores 0. -/
theorem c7_split_counterexample :
    matchScoreClaim 2026 { id := 1, title := "x - y - z", year := "1968" } "x" "y - z" = 100
    ∧ calculateMatchScore 2026 { id := 1, title := "x - y - z", year := "1968" }
        "x" "y - z" = 0 := by
  decide

/-! ## C9 — counterexample to group stripping in artist normalization -/

/-- C9 counterexample: artist normalization does not strip
parenthesized substrings.  On `"AC (DC)"` the code removes only the
delimiters and keeps the content, yielding `"ac dc"`, while the
specification's normalization (strip groups first) yields `"ac"`. -/
theorem c9_artist_strip_counterexample :
    cleanArtist "AC (DC)" = "ac dc"
    ∧ specNormalize "AC (DC)" = "ac"
    ∧ ("ac dc" : String) ≠ "ac" := by
  decide

/-! ## C3 — counterexample to the claimed terminal-status set -/

/-- C3 counterexample: the stream closes on
`{complete, failed, init_failed}`, not on the claimed
`{complete, worker_failed, publish_failed}`.  With status
`worker_failed` and every (zero) result already emitted, no `done`
event is emitted and the stream keeps polling; with status `failed`
— outside the claimed set — `done` IS emitted. -/
theorem c3_status_set_counterexample :
    streamRun [{ list := [], status := some "worker_failed" }] 0 = []
    ∧ streamRun [{ list := [], status := some "failed" }] 0 = [SSEvent.done "failed"] := by
  decide

/-! ## C7 — the match score, amended to the code's split -/

/-- The code's score equals the amended reference score (split on every
`' - '`, require exactly two parts). -/
lemma calculateMatchScore_eq_ref (cy : Int) (r : SearchResult) (na nt : String) :
    calculateMatchScore cy r na nt = matchScoreRef cy r na nt := by
  unfold calculateMatchScore matchScoreRef
  rcases h : jsSplitOn (jsToLower r.title) " - " with _ | ⟨a, _ | ⟨t, _ | ⟨c, rest⟩⟩⟩ <;>
    simp [artistSubscore, titleSubscore]

/-- The score is between 0 and 100. -/
lemma calculateMatchScore_bounds (cy : Int) (r : SearchResult) (na nt : String) :
    0 ≤ calculateMatchScore cy r na nt ∧ calculateMatchScore cy r na nt ≤ 100 := by
  unfold calculateMatchScore
  rcases h : jsSplitOn (jsToLower r.title) " - " with _ | ⟨a, _ | ⟨t, _ | ⟨c, rest⟩⟩⟩ <;>
    simp only [List.length_nil, List.length_cons, List.headD_cons, List.drop_succ_cons,
      List.drop_zero, if_true, if_false] <;>
    first
      | (constructor <;> omega)
      | (cases h2 : jsParseInt r.year <;> simp only [] <;> split_ifs <;> omega)

/-- C7 amended: the match score equals the reference definition in
which the candidate title is split on EVERY occurrence of `' - '` and
exactly two parts are required (a title containing more than one
`' - '` scores 0), the year subscore accepting the `parseInt` digit
prefix in `[1900, currentYear]`; the total lies in `[0, 100]`; and the
candidate `"Beatles - Hey Jude"` with `normArtist = beatles`,
`normTitle = hey jude`, year 1968 scores 100. -/
theorem c7_match_score_amended :
    (∀ (cy : Int) (r : SearchResult) (na nt : String),
      calculateMatchScore cy r na nt = matchScoreRef cy r na nt
      ∧ 0 ≤ calculateMatchScore cy r na nt
      ∧ calculateMatchScore cy r na nt ≤ 100)
    ∧ calculateMatchScore 2026 { id := 1, title := "Beatles - Hey Jude", year := "1968" }
        "beatles" "hey jude" = 100 :=
  ⟨fun cy r na nt =>
    ⟨calculateMatchScore_eq_ref cy r na nt,
      (calculateMatchScore_bounds cy r na nt).1,
      (calculateMatchScore_bounds cy r na nt).2⟩,
   by decide⟩

/-! ## C9 — normalization, amended -/

/-- Consuming a group shortens the remainder. -/
lemma dropGroup_length_le (close : Char) :
    ∀ (l r : List Char), dropGroup close l = some r → r.length ≤ l.length := by
  intro l
  induction l with
  | nil => intro r h; exact absurd h (by simp [dropGroup])
  | cons c t ih =>
    intro r h
    unfold dropGroup at h
    by_cases hc : c = close
    · simp only [hc, if_true] at h
      cases h
      simp
    · simp only [hc, if_false] at h
      have := ih r h
      simp
      omega

/-- The single combined regex pass equals the specification's two-step
reading: strip the groups, then drop the characters outside
`[ \w-]`. -/
lemma stripPassFuel_eq_filter :
    ∀ (fuel : Nat) (l : List Char), l.length ≤ fuel →
      stripPassFuel fuel l = (stripOnlyFuel fuel l).filter allowedChar := by
  intro fuel
  induction fuel with
  | zero =>
    intro l h
    have : l = [] := List.eq_nil_of_length_eq_zero (Nat.le_zero.mp h)
    subst this
    rfl
  | succ n ih =>
    intro l h
    cases l with
    | nil => rfl
    | cons c t =>
      have ht : t.length ≤ n := by
        simp only [List.length_cons] at h
        omega
      simp only [stripPassFuel, stripOnlyFuel]
      by_cases hc : c = '('
      · simp only [hc, if_true]
        cases hg : dropGroup ')' t with
        | some r => exact ih r (le_trans (dropGroup_length_le ')' t r hg) ht)
        | none =>
          have hpar : allowedChar '(' = false := rfl
          simp [List.filter_cons, hpar, ih t ht]
      · simp only [hc, if_false]
        by_cases hb : c = '['
        · simp only [hb, if_true]
          cases hg : dropGroup ']' t with
          | some r => exact ih r (le_trans (dropGroup_length_le ']' t r hg) ht)
          | none =>
            have hbr : allowedChar '[' = false := rfl
            simp [List.filter_cons, hbr, ih t ht]
        · simp only [hb, if_false]
          by_cases ha : allowedChar c
          · simp [List.filter_cons, ha, ih t ht]
          · simp [List.filter_cons, ha, ih t ht]

/-- C9 amended: title normalization strips parenthesized and bracketed
substrings, removes characters outside `[A-Za-z0-9 _-]`, collapses
runs of whitespace to one space, trims and lowercases; artist
normalization performs only the last four steps — the parentheses and
brackets themselves are removed as excluded characters, but their
contents are kept. -/
theorem c9_normalization_amended :
    (∀ s : String, cleanTitle s = specNormalize s)
    ∧ (∀ s : String, cleanArtist s = specNormalizeNoStrip s) := by
  constructor
  · intro s
    unfold cleanTitle specNormalize
    rw [stripPassFuel_eq_filter s.data.length s.data (le_refl _)]
  · intro s
    rfl

/-! ## C6 — the year invariant, amended to the catalog path -/

/-- The streaming fallback is tagged `source = "spotify"`. -/
lemma fallbackToSpotify_source (song : Song) :
    (fallbackToSpotify song).source = "spotify" := rfl

/-- On the successful catalog path, the resolver validated
`parseInt(releaseYear)` against `[1900, currentYear]` before
returning. -/
lemma getDiscogsDataE_ok_discogs_year (env : DiscogsEnv) (song : Song) (p : ProcessedSong)
    (hp : getDiscogsDataE env song = Except.ok p) (hs : p.source = "discogs") :
    ∃ y : Int, jsParseInt p.releaseYear = some y ∧ 1900 ≤ y ∧ y ≤ env.currentYear := by
  simp only [getDiscogsDataE] at hp
  repeat' split at hp
  all_goals try (exfalso; exact Except.noConfusion hp)
  all_goals simp only [Except.ok.injEq] at hp
  all_goals try (subst hp; rw [fallbackToSpotify_source] at hs; exact absurd hs (by decide))
  rename_i y heq hrange
  subst hp
  exact ⟨y, heq, by omega⟩

/-- C6 amended: every `ProcessedSong` the resolver returns with
`source = "discogs"` (the catalog) has `parseInt(releaseYear)` in
`[1900, currentYear]`; a `ProcessedSong` produced through the
streaming fallback instead carries the raw first `-`-component of
`currentReleaseDate` (or `N/A`), which is not validated and may lie
outside the range. -/
theorem c6_catalog_year_in_range (env : DiscogsEnv) (song : Song)
    (h : (getReleaseData env song).source = "discogs") :
    ∃ y : Int, jsParseInt (getReleaseData env song).releaseYear = some y
      ∧ 1900 ≤ y ∧ y ≤ env.currentYear := by
  have hsplit : getReleaseData env song = fallbackToSpotify song
      ∨ getReleaseData env song = getDiscogsData env song := by
    simp only [getReleaseData]
    split
    · exact Or.inl rfl
    · exact Or.inr rfl
  cases hsplit with
  | inl hf =>
    rw [hf, fallbackToSpotify_source] at h
    exact absurd h (by decide)
  | inr hg =>
    rw [hg] at h ⊢
    cases hp : getDiscogsDataE env song with
    | error e =>
      have hfb : getDiscogsData env song = fallbackToSpotify song := by
        simp [getDiscogsData, hp]
      rw [hfb, fallbackToSpotify_source] at h
      exact absurd h (by decide)
    | ok p =>
      have hgp : getDiscogsData env song = p := by
        simp [getDiscogsData, hp]
      rw [hgp] at h ⊢
      exact getDiscogsDataE_ok_discogs_year env song p hp h

/-- Witness for C6 amended: the happy-path environment resolves
"Hey Jude" from the catalog with the validated year 1968. -/
theorem c6_catalog_year_in_range_witness :
    (getReleaseData heyJudeEnv heyJudeSong).source = "discogs"
    ∧ ∃ y : Int, jsParseInt (getReleaseData heyJudeEnv heyJudeSong).releaseYear = some y
        ∧ 1900 ≤ y ∧ y ≤ heyJudeEnv.currentYear :=
  ⟨by decide, c6_catalog_year_in_range heyJudeEnv heyJudeSong (by decide)⟩

/-! ## C8 — best-match selection and the score threshold -/

/-- If no remaining score beats the running best, the loop keeps the
accumulator. -/
lemma selectBestAux_stable (cy : Int) (ca ct : String) :
    ∀ (l : List SearchResult) (b : Option SearchResult) (s : Int),
      (∀ r ∈ l, calculateMatchScore cy r ca ct ≤ s) →
      selectBestAux cy ca ct l b s = (b, s) := by
  intro l
  induction l with
  | nil => intro b s _; rfl
  | cons a t ih =>
    intro b s hall
    have ha : ¬ calculateMatchScore cy a ca ct > s := by
      have := hall a (List.mem_cons_self a t)
      omega
    simp only [selectBestAux, if_neg ha]
    exact ih b s fun r hr => hall r (List.mem_cons_of_mem a hr)

/-- If some remaining score beats the running best, the loop returns
the first candidate attaining the overall maximum: every earlier
candidate scores strictly less, every later one at most as much. -/
lemma selectBestAux_first_max (cy : Int) (ca ct : String) :
    ∀ (l : List SearchResult) (b : Option SearchResult) (s : Int),
      (∃ r ∈ l, s < calculateMatchScore cy r ca ct) →
      ∃ pre c post, l = pre ++ c :: post
        ∧ selectBestAux cy ca ct l b s = (some c, calculateMatchScore cy c ca ct)
        ∧ s < calculateMatchScore cy c ca ct
        ∧ (∀ r ∈ pre, calculateMatchScore cy r ca ct < calculateMatchScore cy c ca ct)
        ∧ (∀ r ∈ post, calculateMatchScore cy r ca ct ≤ calculateMatchScore cy c ca ct) := by
  intro l
  induction l with
  | nil =>
    rintro b s ⟨r, hr, -⟩
    exact absurd hr (List.not_mem_nil r)
  | cons a t ih =>
    intro b s hex
    by_cases ha : calculateMatchScore cy a ca ct > s
    · by_cases hrest : ∃ r ∈ t, calculateMatchScore cy a ca ct < calculateMatchScore cy r ca ct
      · obtain ⟨pre, c, post, ht, heq, hlt, hpre, hpost⟩ :=
          ih (some a) (calculateMatchScore cy a ca ct) hrest
        refine ⟨a :: pre, c, post, by simp [ht], ?_, by omega, ?_, hpost⟩
        · simp only [selectBestAux, if_pos ha]
          exact heq
        · intro r hr
          rcases List.mem_cons.mp hr with rfl | hr
          · omega
          · exact hpre r hr
      · push_neg at hrest
        refine ⟨[], a, t, rfl, ?_, ha, by simp, hrest⟩
        simp only [selectBestAux, if_pos ha]
        exact selectBestAux_stable cy ca ct t (some a) (calculateMatchScore cy a ca ct) hrest
    · have hex' : ∃ r ∈ t, s < calculateMatchScore cy r ca ct := by
        obtain ⟨r, hr, hsr⟩ := hex
        rcases List.mem_cons.mp hr with rfl | hr
        · omega
        · exact ⟨r, hr, hsr⟩
      obtain ⟨pre, c, post, ht, heq, hlt, hpre, hpost⟩ := ih b s hex'
      refine ⟨a :: pre, c, post, by simp [ht], ?_, hlt, ?_, hpost⟩
      · simp only [selectBestAux, if_neg ha]
        exact heq
      · intro r hr
        rcases List.mem_cons.mp hr with rfl | hr
        · omega
        · exact hpre r hr

/-- When the combined search succeeds with candidates but the best
score stays below 80, `getDiscogsData` falls back to streaming data. -/
lemma getDiscogsData_low_score (env : DiscogsEnv) (song : Song) (sd : SearchResp)
    (hs : env.search (cleanArtist song.artist ++ " " ++ cleanTitle song.title) 10
      = Except.ok sd)
    (hne : sd.results ≠ [])
    (hlow : (selectBest env.currentYear (cleanArtist song.artist) (cleanTitle song.title)
      sd.results).2 < 80) :
    getDiscogsData env song = fallbackToSpotify song := by
  have hemp : sd.results.isEmpty = false := by
    cases hres : sd.results with
    | nil => exact absurd hres hne
    | cons x xs => rfl
  have hE : getDiscogsDataE env song = Except.ok (fallbackToSpotify song) := by
    simp only [getDiscogsDataE, hs, hemp, Bool.false_eq_true, if_false, if_neg]
    cases hsel : selectBest env.currentYear (cleanArtist song.artist)
        (cleanTitle song.title) sd.results with
    | mk b sc =>
      rw [hsel] at hlow
      cases b with
      | none => rfl
      | some best => simp only [if_pos hlow]
  simp [getDiscogsData, hE]

/-- C8: for every non-empty candidate list the resolver's loop selects
the single highest-scoring candidate, ties resolved in favor of the
first-seen candidate; and when the selected score is below 80 the
resolver returns the streaming fallback instead of fetching the
master. -/
theorem c8_best_candidate_and_threshold :
    (∀ (cy : Int) (ca ct : String) (l : List SearchResult), l ≠ [] →
      ∃ pre c post, l = pre ++ c :: post
        ∧ selectBest cy ca ct l = (some c, calculateMatchScore cy c ca ct)
        ∧ (∀ r ∈ pre, calculateMatchScore cy r ca ct < calculateMatchScore cy c ca ct)
        ∧ (∀ r ∈ l, calculateMatchScore cy r ca ct ≤ calculateMatchScore cy c ca ct))
    ∧ (∀ (env : DiscogsEnv) (song : Song) (sd : SearchResp),
        env.search (cleanArtist song.artist ++ " " ++ cleanTitle song.title) 10
          = Except.ok sd →
        sd.results ≠ [] →
        (selectBest env.currentYear (cleanArtist song.artist) (cleanTitle song.title)
          sd.results).2 < 80 →
        getDiscogsData env song = fallbackToSpotify song) := by
  constructor
  · intro cy ca ct l hne
    have hex : ∃ r ∈ l, (-1 : Int) < calculateMatchScore cy r ca ct := by
      cases l with
      | nil => exact absurd rfl hne
      | cons a t =>
        refine ⟨a, List.mem_cons_self a t, ?_⟩
        have := (calculateMatchScore_bounds cy a ca ct).1
        omega
    obtain ⟨pre, c, post, ht, heq, hlt, hpre, hpost⟩ :=
      selectBestAux_first_max cy ca ct l none (-1) hex
    refine ⟨pre, c, post, ht, heq, hpre, ?_⟩
    intro r hr
    rw [ht] at hr
    rcases List.mem_append.mp hr with hr | hr
    · have := hpre r hr
      omega
    · rcases List.mem_cons.mp hr with rfl | hr
      · omega
      · exact hpost r hr
  · exact getDiscogsData_low_score

/-- Witness for C8 at a concrete one-candidate list and the
low-scoring environment. -/
theorem c8_best_candidate_and_threshold_witness :
    (∃ pre c post, ([⟨3, "zzz", "x"⟩] : List SearchResult) = pre ++ c :: post
      ∧ selectBest 2026 "a" "t1" [⟨3, "zzz", "x"⟩] = (some c, calculateMatchScore 2026 c "a" "t1")
      ∧ (∀ r ∈ pre, calculateMatchScore 2026 r "a" "t1" < calculateMatchScore 2026 c "a" "t1")
      ∧ (∀ r ∈ ([⟨3, "zzz", "x"⟩] : List SearchResult),
          calculateMatchScore 2026 r "a" "t1" ≤ calculateMatchScore 2026 c "a" "t1"))
    ∧ getDiscogsData lowScoreEnv songA = fallbackToSpotify songA :=
  ⟨c8_best_candidate_and_threshold.1 2026 "a" "t1" [⟨3, "zzz", "x"⟩] (by decide),
   c8_best_candidate_and_threshold.2 lowScoreEnv songA
     { results := [{ id := 3, title := "zzz", year := "x" }] } rfl (by decide) (by decide)⟩

/-! ## Stream lemmas shared by C2 and C3 -/

/-- Unfolding `streamRun` on a closing poll: the new songs, then `done`, then
nothing. -/
lemma streamRun_cons_closed (o : StreamObs) (rest : List StreamObs) (lastIdx : Nat)
    (h : terminalStatus o.status ∧ max lastIdx o.list.reverse.length = o.list.reverse.length) :
    streamRun (o :: rest) lastIdx =
      (o.list.reverse.drop lastIdx).map SSEvent.song
        ++ [SSEvent.done (o.status.getD "finished_unexpected_null")] := by
  simp only [streamRun, streamCheck, if_pos h, if_true]

/-- Unfolding `streamRun` on a non-closing poll: the new songs, then the rest of
the run with the advanced index. -/
lemma streamRun_cons_open (o : StreamObs) (rest : List StreamObs) (lastIdx : Nat)
    (h : ¬(terminalStatus o.status ∧ max lastIdx o.list.reverse.length = o.list.reverse.length)) :
    streamRun (o :: rest) lastIdx =
      (o.list.reverse.drop lastIdx).map SSEvent.song
        ++ streamRun rest (max lastIdx o.list.reverse.length) := by
  simp only [streamRun, streamCheck, if_neg h, Bool.false_eq_true, if_false]

/-- Only `song` events carry the payloads. -/
lemma songEvents_map_song (l : List ProcessedSong) :
    songEvents (l.map SSEvent.song) = l := by
  unfold songEvents
  induction l with
  | nil => rfl
  | cons a t ih => simp [List.filterMap_cons, ih]

/-- Function `songEvents` distributes over concatenation. -/
lemma songEvents_append (a b : List SSEvent) :
    songEvents (a ++ b) = songEvents a ++ songEvents b := by
  unfold songEvents
  exact List.filterMap_append a b _

/-- A `done` event contributes no song payload. -/
lemma songEvents_done (s : String) : songEvents [SSEvent.done s] = [] := rfl

/-- Chained slice decomposition of a take: for `i ≤ j ≤ m` with `j`
within the list, the slice `[i, m)` splits at `j`. -/
lemma take_drop_chain {α : Type} (xs : List α) (i j m : Nat)
    (hij : i ≤ j) (hjm : j ≤ m) (hjl : j ≤ xs.length) :
    (xs.take m).drop i = (xs.take j).drop i ++ (xs.take m).drop j := by
  have hsplit : xs.take m = xs.take j ++ (xs.take m).drop j := by
    have h1 : (xs.take m).take j = xs.take j := by
      rw [List.take_take, min_eq_left hjm]
    conv_lhs => rw [← List.take_append_drop j (xs.take m), h1]
  calc (xs.take m).drop i
      = (xs.take j ++ (xs.take m).drop j).drop i := by conv_lhs => rw [hsplit]
    _ = (xs.take j).drop i ++ (xs.take m).drop j := by
        apply List.drop_append_of_le_length
        rw [List.length_take_of_le hjl]
        exact hij

/-- The core of C2: when every observed list is an `lpush`-built state
— the reverse of a prefix of the insertion sequence `xs`, which is how
the only in-repo writer of the stream's results key
(`processRemainingSongsInBackground`) builds it — the song events the
run emits are exactly a contiguous slice `[lastIdx, m)` of `xs`. -/
lemma streamRun_lpush_songs (xs : List ProcessedSong) :
    ∀ (obss : List StreamObs) (lastIdx : Nat),
      lastIdx ≤ xs.length →
      (∀ o ∈ obss, ∃ k, k ≤ xs.length ∧ o.list = (xs.take k).reverse) →
      ∃ m, lastIdx ≤ m ∧ m ≤ xs.length
        ∧ songEvents (streamRun obss lastIdx) = (xs.take m).drop lastIdx := by
  intro obss
  induction obss with
  | nil =>
    intro lastIdx hli _
    refine ⟨lastIdx, le_refl _, hli, ?_⟩
    have : (xs.take lastIdx).drop lastIdx = [] := by
      apply List.drop_eq_nil_of_le
      rw [List.length_take]
      exact min_le_left _ _
    rw [this]
    rfl
  | cons o rest ih =>
    intro lastIdx hli hobs
    obtain ⟨k, hk, hol⟩ := hobs o (List.mem_cons_self o rest)
    have hcur : o.list.reverse = xs.take k := by rw [hol, List.reverse_reverse]
    have hcurlen : o.list.reverse.length = k := by
      rw [hcur, List.length_take_of_le hk]
    by_cases hC : terminalStatus o.status
        ∧ max lastIdx o.list.reverse.length = o.list.reverse.length
    · rw [streamRun_cons_closed o rest lastIdx hC, songEvents_append,
        songEvents_map_song, songEvents_done, List.append_nil, hcur]
      rcases Nat.le_total k lastIdx with hkl | hkl
      · refine ⟨lastIdx, le_refl _, hli, ?_⟩
        have h1 : (xs.take k).drop lastIdx = [] := by
          apply List.drop_eq_nil_of_le
          rw [List.length_take]
          exact le_trans (min_le_left _ _) hkl
        have h2 : (xs.take lastIdx).drop lastIdx = [] := by
          apply List.drop_eq_nil_of_le
          rw [List.length_take]
          exact min_le_left _ _
        rw [h1, h2]
      · exact ⟨k, hkl, hk, rfl⟩
    · rw [streamRun_cons_open o rest lastIdx hC, songEvents_append, songEvents_map_song,
        hcur, List.length_take_of_le hk]
      have hmaxle : max lastIdx k ≤ xs.length := max_le hli hk
      obtain ⟨m, hm1, hm2, hrec⟩ := ih (max lastIdx k) hmaxle
        (fun o' ho' => hobs o' (List.mem_cons_of_mem o ho'))
      rw [hrec]
      rcases Nat.le_total k lastIdx with hkl | hkl
      · have hmax : max lastIdx k = lastIdx := max_eq_left hkl
        rw [hmax] at hm1 hrec ⊢
        have h1 : (xs.take k).drop lastIdx = [] := by
          apply List.drop_eq_nil_of_le
          rw [List.length_take]
          exact le_trans (min_le_left _ _) hkl
        rw [h1, List.nil_append]
        exact ⟨m, hm1, hm2, rfl⟩
      · have hmax : max lastIdx k = k := max_eq_right hkl
        rw [hmax] at hm1 ⊢
        refine ⟨m, le_trans hkl hm1, hm2, ?_⟩
        rw [← take_drop_chain xs lastIdx k m hkl hm1 hk]

/-! ## C2 — stream song events form a prefix of the results -/

/-- C2: for every job and open event stream on it, when the stream's
results key is only ever extended by `lpush` of successive entries of
the insertion sequence `xs` (which is what the repo's only writer of
that key does, making each observed list the reverse of a prefix of
`xs`), the song-event payloads the stream emits across its polls form
a prefix of `xs` — insertion order is preserved.  (Under the current
QStash worker, which writes `job:`-prefixed keys the stream never
reads, every observed list is empty — the `k = 0` instance — and the
emitted sequence is the empty prefix.) -/
theorem c2_stream_song_events_in_order (xs : List ProcessedSong) (obss : List StreamObs)
    (hobs : ∀ o ∈ obss, ∃ k, k ≤ xs.length ∧ o.list = (xs.take k).reverse) :
    ∃ t, songEvents (streamRun obss 0) ++ t = xs := by
  obtain ⟨m, -, hm2, hse⟩ := streamRun_lpush_songs xs obss 0 (Nat.zero_le _) hobs
  refine ⟨xs.drop m, ?_⟩
  rw [hse, List.drop_zero, List.take_append_drop]

/-- Concrete observation 1 for the C2 witness: one entry pushed. -/
def obsW1 : StreamObs :=
  { list := [fallbackToSpotify songA], status := some "processing" }

/-- Concrete observation 2 for the C2 witness: a second entry pushed
(`lpush` prepends) and the job completed. -/
def obsW2 : StreamObs :=
  { list := [fallbackToSpotify songB, fallbackToSpotify songA], status := some "complete" }

/-- Insertion sequence for the C2 witness. -/
def xsW : List ProcessedSong := [fallbackToSpotify songA, fallbackToSpotify songB]

/-- Witness for C2 on a concrete two-poll trace. -/
theorem c2_stream_song_events_in_order_witness :
    (∀ o ∈ [obsW1, obsW2], ∃ k, k ≤ xsW.length ∧ o.list = (xsW.take k).reverse)
    ∧ ∃ t, songEvents (streamRun [obsW1, obsW2] 0) ++ t = xsW := by
  have hyp : ∀ o ∈ [obsW1, obsW2], ∃ k, k ≤ xsW.length ∧ o.list = (xsW.take k).reverse := by
    intro o ho
    rcases List.mem_cons.mp ho with rfl | ho
    · exact ⟨1, by decide, by decide⟩
    · rcases List.mem_cons.mp ho with rfl | ho
      · exact ⟨2, by decide, by decide⟩
      · exact absurd ho (List.not_mem_nil o)
  exact ⟨hyp, c2_stream_song_events_in_order xsW [obsW1, obsW2] hyp⟩

/-! ## C3 — `done` emission, amended -/

/-- In `map song l ++ [done s]`, a `done` event can only be the last
element. -/
lemma done_last_of_map_song (s : String) :
    ∀ (l : List ProcessedSong) (pre : List SSEvent) (d : String) (post : List SSEvent),
      (l.map SSEvent.song) ++ [SSEvent.done s] = pre ++ SSEvent.done d :: post →
      post = [] := by
  intro l
  induction l with
  | nil =>
    intro pre d post h
    cases pre with
    | nil =>
      simp only [List.map_nil, List.nil_append] at h
      exact (List.cons.injEq _ _ _ _ ▸ h).2.symm ▸ rfl
    | cons p pre' =>
      simp only [List.map_nil, List.nil_append, List.cons_append] at h
      have := (List.cons.injEq _ _ _ _ ▸ h).2
      exact absurd this (by simp)
  | cons a t ih =>
    intro pre d post h
    cases pre with
    | nil =>
      simp only [List.map_cons, List.cons_append, List.nil_append] at h
      exact absurd (List.cons.injEq _ _ _ _ ▸ h).1 (by simp)
    | cons p pre' =>
      simp only [List.map_cons, List.cons_append] at h
      exact ih pre' d post (List.cons.injEq _ _ _ _ ▸ h).2

/-- A `done` event inside `map song l ++ R` must lie inside `R`. -/
lemma done_in_tail_of_map_song :
    ∀ (l : List ProcessedSong) (R : List SSEvent) (pre : List SSEvent) (d : String)
      (post : List SSEvent),
      (l.map SSEvent.song) ++ R = pre ++ SSEvent.done d :: post →
      ∃ pre2, R = pre2 ++ SSEvent.done d :: post := by
  intro l
  induction l with
  | nil =>
    intro R pre d post h
    exact ⟨pre, by simpa using h⟩
  | cons a t ih =>
    intro R pre d post h
    cases pre with
    | nil =>
      simp only [List.map_cons, List.cons_append, List.nil_append] at h
      exact absurd (List.cons.injEq _ _ _ _ ▸ h).1 (by simp)
    | cons p pre' =>
      simp only [List.map_cons, List.cons_append] at h
      exact ih R pre' d post (List.cons.injEq _ _ _ _ ▸ h).2

/-- C3 amended: the stream emits `done` and closes exactly when the
status it reads is one of `{complete, failed, init_failed}` (not the
claimed `{complete, worker_failed, publish_failed}`) and every entry
of the (filtered, reversed) results list it read has been emitted —
after a poll's own emissions this is exactly `lastIndex ≤ len`; and
whenever `done` is emitted it is the final event of the stream. -/
theorem c3_done_characterization :
    (∀ (o : StreamObs) (i : Nat),
      (∃ d, SSEvent.done d ∈ (streamCheck o i).1) ↔
        (terminalStatus o.status = true ∧ i ≤ o.list.length))
    ∧ (∀ (o : StreamObs) (i : Nat),
        (streamCheck o i).2.2 = true ↔
          (terminalStatus o.status = true ∧ i ≤ o.list.length))
    ∧ (∀ (obss : List StreamObs) (i : Nat) (pre : List SSEvent) (d : String)
        (post : List SSEvent),
        streamRun obss i = pre ++ SSEvent.done d :: post → post = []) := by
  refine ⟨?_, ?_, ?_⟩
  · intro o i
    by_cases hC : terminalStatus o.status
        ∧ max i o.list.reverse.length = o.list.reverse.length
    · simp only [streamCheck, if_pos hC]
      constructor
      · intro _
        refine ⟨hC.1, ?_⟩
        have := hC.2
        rw [List.length_reverse] at this
        have hle := le_max_left i o.list.length
        omega
      · intro _
        exact ⟨o.status.getD "finished_unexpected_null", by simp⟩
    · simp only [streamCheck, if_neg hC]
      constructor
      · rintro ⟨d, hd⟩
        rw [List.mem_map] at hd
        obtain ⟨p, -, hp⟩ := hd
        exact absurd hp (by simp)
      · rintro ⟨ht, hle⟩
        exfalso
        apply hC
        refine ⟨ht, ?_⟩
        rw [List.length_reverse]
        omega
  · intro o i
    by_cases hC : terminalStatus o.status
        ∧ max i o.list.reverse.length = o.list.reverse.length
    · simp only [streamCheck, if_pos hC]
      have := hC.2
      rw [List.length_reverse] at this
      have hle := le_max_left i o.list.length
      simp only [true_iff]
      exact ⟨hC.1, by omega⟩
    · simp only [streamCheck, if_neg hC]
      constructor
      · intro h
        exact absurd h (by simp)
      · rintro ⟨ht, hle⟩
        exfalso
        apply hC
        refine ⟨ht, ?_⟩
        rw [List.length_reverse]
        omega
  · intro obss
    induction obss with
    | nil =>
      intro i pre d post h
      simp only [streamRun] at h
      exact absurd h.symm (by simp)
    | cons o rest ih =>
      intro i pre d post h
      by_cases hC : terminalStatus o.status
          ∧ max i o.list.reverse.length = o.list.reverse.length
      · rw [streamRun_cons_closed o rest i hC] at h
        exact done_last_of_map_song _ _ pre d post h
      · rw [streamRun_cons_open o rest i hC] at h
        obtain ⟨pre2, h2⟩ := done_in_tail_of_map_song _ _ pre d post h
        exact ih _ pre2 d post h2

/-- Witness for C3 amended at a concrete observation: status
`complete` with an empty results list emits `done`, closes, and the
`done` is final. -/
theorem c3_done_characterization_witness :
    (∃ d, SSEvent.done d ∈ (streamCheck { list := [], status := some "complete" } 0).1)
    ∧ (streamCheck { list := [], status := some "complete" } 0).2.2 = true
    ∧ ([] : List SSEvent) = [] :=
  ⟨(c3_done_characterization.1 { list := [], status := some "complete" } 0).mpr (by decide),
   (c3_done_characterization.2.1 { list := [], status := some "complete" } 0).mpr (by decide),
   c3_done_characterization.2.2 [{ list := [], status := some "complete" }] 0 [] "complete" []
     (by decide)⟩

end Musikquiz
